import Mathlib

/-!
A verification development for the mailchimp-downloader scripts: a shallow
embedding of the paginated campaign fetch, the per-item enrichment fetches
with retries, filename sanitization, and the CSV export loop with periodic
checkpointing, translated from src/mailchimp_csv_generator.py (the basic
generator, namespace Basic), src/mailchimp_csv_generator_robust.py (the
robust generator, namespace Robust) and src/mailchimp_downloader.py.

Network traffic is modelled by oracles supplying one outcome per request:
an HTTP response carrying a status code and a parsed body, a timeout, or
some other exception.  Sleeping is modelled by an accumulated duration
counter (time.sleep(2) adds 2).  The filesystem is modelled by a
path-existence predicate, and the output CSV file by an optional pair of
the header field names and the rows last written to it.
-/

/-- The outcome of one page request of the campaign listing endpoint:
a 200 response carrying a page of items, a response with a non-200 status
code, a requests.exceptions.Timeout, or any other exception. -/
inductive PageOutcome (α : Type) where
  | ok (page : List α)
  | httpError
  | timeout
  | exn
deriving DecidableEq, Repr

/-- How a call to a get_all_campaigns function ends: it returns a list of
campaigns, an uncaught exception propagates to its caller, or the request
oracle is exhausted, meaning the loop would still be requesting pages. -/
inductive FetchOut (α : Type) where
  | returned (campaigns : List α)
  | raised
  | hung
deriving DecidableEq, Repr

/-- Result of a listing fetch: how it ended, how many page requests it
issued, and the total time spent in time.sleep calls. -/
structure FetchRes (α : Type) where
  out : FetchOut α
  requests : Nat
  sleepTime : Nat
deriving DecidableEq, Repr

namespace Robust

/-- The while-True page loop of MailchimpCSVGenerator.get_all_campaigns in
src/mailchimp_csv_generator_robust.py (lines 56-95), one oracle entry per
request.  A non-200 status breaks out of the loop, an empty page breaks,
a page shorter than count breaks after being accumulated, a full page
advances the offset by count, a timeout sleeps 2 and retries without
touching the accumulator or the offset, and any other exception breaks. -/
def fetchLoop (count : Nat) : List (PageOutcome α) → List α → Nat → FetchRes α
  | [], _, _ => ⟨.hung, 0, 0⟩
  | .ok page :: rest, acc, off =>
      if page.isEmpty then ⟨.returned acc, 1, 0⟩
      else if page.length < count then ⟨.returned (acc ++ page), 1, 0⟩
      else
        let r := fetchLoop count rest (acc ++ page) (off + count)
        ⟨r.out, r.requests + 1, r.sleepTime⟩
  | .httpError :: _, acc, _ => ⟨.returned acc, 1, 0⟩
  | .timeout :: rest, acc, off =>
      let r := fetchLoop count rest acc off
      ⟨r.out, r.requests + 1, r.sleepTime + 2⟩
  | .exn :: _, acc, _ => ⟨.returned acc, 1, 0⟩

/-- Robust get_all_campaigns: runs the page loop with count = 1000, an
empty accumulator and offset 0. -/
def get_all_campaigns (oracle : List (PageOutcome α)) : FetchRes α :=
  fetchLoop 1000 oracle [] 0

end Robust

namespace Basic

/-- The while-True page loop of MailchimpCSVGenerator.get_all_campaigns in
src/mailchimp_csv_generator.py (lines 35-66).  Identical to the robust
loop on responses, but the requests.get call is not wrapped in try/except,
so a timeout or any other exception propagates out of the function. -/
def fetchLoop (count : Nat) : List (PageOutcome α) → List α → Nat → FetchRes α
  | [], _, _ => ⟨.hung, 0, 0⟩
  | .ok page :: rest, acc, off =>
      if page.isEmpty then ⟨.returned acc, 1, 0⟩
      else if page.length < count then ⟨.returned (acc ++ page), 1, 0⟩
      else
        let r := fetchLoop count rest (acc ++ page) (off + count)
        ⟨r.out, r.requests + 1, r.sleepTime⟩
  | .httpError :: _, acc, _ => ⟨.returned acc, 1, 0⟩
  | .timeout :: _, _, _ => ⟨.raised, 1, 0⟩
  | .exn :: _, _, _ => ⟨.raised, 1, 0⟩

/-- Basic get_all_campaigns: runs the page loop with count = 1000, an
empty accumulator and offset 0. -/
def get_all_campaigns (oracle : List (PageOutcome α)) : FetchRes α :=
  fetchLoop 1000 oracle [] 0

end Basic

/-- The pages a well-behaved remote API holding exactly the list remote
serves to a client that never repeats an offset: chunks of c + 1 items in
order.  Used with c + 1 = 1000, the page size of the scripts. -/
def chunkPages (c : Nat) : List α → List (List α)
  | [] => []
  | a :: l => ((a :: l).take (c + 1)) :: chunkPages c ((a :: l).drop (c + 1))
termination_by l => l.length
decreasing_by simp; omega

/-- The request oracle of a fully successful run against a remote holding
exactly remote: every page request succeeds, request j is served the j-th
1000-chunk of the campaign list, and a request past the end is served an
empty page. -/
def honestOracle (remote : List α) : List (PageOutcome α) :=
  (chunkPages 999 remote).map PageOutcome.ok ++ [PageOutcome.ok []]

/-- Unfolding equation for honestOracle on a nonempty remote: the first
request is served the first 1000 campaigns, and the rest of the oracle is
the honest oracle of the remainder. -/
theorem honestOracle_cons (a : α) (l : List α) :
    honestOracle (a :: l) =
      PageOutcome.ok ((a :: l).take 1000) :: honestOracle ((a :: l).drop 1000) := by
  rw [honestOracle, chunkPages]
  simp [honestOracle]

/-- The honest oracle consists of ok outcomes only. -/
theorem honestOracle_eq_map (remote : List α) :
    honestOracle remote = (chunkPages 999 remote ++ [[]]).map PageOutcome.ok := by
  simp [honestOracle]

/-- On an all-successful oracle the basic and the robust page loops agree,
request for request: their branches differ only on timeouts and
exceptions. -/
theorem fetchLoop_basic_eq_robust (count : Nat) (pages : List (List α)) :
    ∀ (acc : List α) (off : Nat),
      Basic.fetchLoop count (pages.map PageOutcome.ok) acc off =
        Robust.fetchLoop count (pages.map PageOutcome.ok) acc off := by
  induction pages with
  | nil => intro acc off; rfl
  | cons p rest ih =>
      intro acc off
      simp only [List.map_cons, Basic.fetchLoop, Robust.fetchLoop]
      split
      · rfl
      · split
        · rfl
        · rw [ih]

/-- Running the robust page loop against the honest oracle of a remote of
size k, from any accumulator and offset: it returns the accumulator
extended by the whole remote, issues k / 1000 + 1 page requests, and never
sleeps. -/
theorem Robust.fetchLoop_honest (remote : List α) :
    ∀ (acc : List α) (off : Nat),
      Robust.fetchLoop 1000 (honestOracle remote) acc off =
        ⟨.returned (acc ++ remote), remote.length / 1000 + 1, 0⟩ := by
  have key : ∀ (n : Nat) (rm acc : List α) (off : Nat), rm.length ≤ n →
      Robust.fetchLoop 1000 (honestOracle rm) acc off =
        ⟨.returned (acc ++ rm), rm.length / 1000 + 1, 0⟩ := by
    intro n
    induction n with
    | zero =>
        intro rm acc off h
        have hrm : rm = [] := List.length_eq_zero.mp (Nat.le_zero.mp h)
        subst hrm
        simp [honestOracle, chunkPages, Robust.fetchLoop]
    | succ n ih =>
        intro rm acc off h
        match rm with
        | [] => simp [honestOracle, chunkPages, Robust.fetchLoop]
        | a :: l =>
          rw [honestOracle_cons]
          simp only [List.length_cons] at h
          by_cases hlen : l.length + 1 < 1000
          · have hle : (a :: l).length ≤ 1000 := by
              simp only [List.length_cons]
              omega
            have htake : (a :: l).take 1000 = a :: l := List.take_of_length_le hle
            have h1 : ¬ (((a :: l).take 1000).isEmpty = true) := by
              rw [htake]
              simp
            have h2 : ((a :: l).take 1000).length < 1000 := by
              rw [htake]
              simpa using hlen
            have hdiv : (a :: l).length / 1000 = 0 := by
              apply Nat.div_eq_of_lt
              simpa using hlen
            simp only [Robust.fetchLoop]
            rw [if_neg h1, if_pos h2, htake, hdiv]
          · push_neg at hlen
            have htlen : ((a :: l).take 1000).length = 1000 := by
              rw [List.length_take, List.length_cons]
              omega
            have h1 : ¬ (((a :: l).take 1000).isEmpty = true) := by
              intro hemp
              have h0 := List.length_eq_zero.mpr (List.isEmpty_iff.mp hemp)
              omega
            have h2 : ¬ (((a :: l).take 1000).length < 1000) := by omega
            have hdroplen : ((a :: l).drop 1000).length ≤ n := by
              rw [List.length_drop, List.length_cons]
              omega
            have hrec := ih ((a :: l).drop 1000) (acc ++ (a :: l).take 1000)
              (off + 1000) hdroplen
            simp only [Robust.fetchLoop]
            rw [if_neg h1, if_neg h2]
            have hjoin : acc ++ (a :: l).take 1000 ++ (a :: l).drop 1000 =
                acc ++ a :: l := by
              rw [List.append_assoc, List.take_append_drop]
            have hstep : (a :: l).length / 1000 =
                ((a :: l).length - 1000) / 1000 + 1 :=
              Nat.div_eq_sub_div (by norm_num)
                (by simp only [List.length_cons]; omega)
            rw [hrec, hjoin, List.length_drop, hstep]
  intro acc off
  exact key remote.length remote acc off (Nat.le_refl _)

/-- Timeout behaviour of the robust page loop: t consecutive timeouts at
any point of the run leave the accumulated campaigns and the offset
unchanged, add one request and one time.sleep(2) per timeout, and
otherwise the run continues exactly as it would have without them. -/
theorem Robust.fetchLoop_timeouts (count t : Nat) (rest : List (PageOutcome α))
    (acc : List α) (off : Nat) :
    Robust.fetchLoop count (List.replicate t PageOutcome.timeout ++ rest) acc off =
      ⟨(Robust.fetchLoop count rest acc off).out,
       (Robust.fetchLoop count rest acc off).requests + t,
       (Robust.fetchLoop count rest acc off).sleepTime + 2 * t⟩ := by
  induction t with
  | zero => simp
  | succ t ih =>
      rw [List.replicate_succ, List.cons_append]
      simp only [Robust.fetchLoop, ih]
      refine congrArg₂ (FetchRes.mk _) ?_ ?_ <;> omega

/-- A run of full pages (of exactly count items each) passes straight
through both page loops: each page is accumulated, the offset advances by
count, and the loop continues with the rest of the oracle. -/
theorem Robust.fetchLoop_fullPages (count : Nat) (pages : List (List α))
    (hfull : ∀ p ∈ pages, p.length = count) (hc : 0 < count)
    (tail : List (PageOutcome α)) :
    ∀ (acc : List α) (off : Nat),
      Robust.fetchLoop count (pages.map PageOutcome.ok ++ tail) acc off =
        ⟨(Robust.fetchLoop count tail (acc ++ pages.flatten) (off + count * pages.length)).out,
         (Robust.fetchLoop count tail (acc ++ pages.flatten) (off + count * pages.length)).requests
           + pages.length,
         (Robust.fetchLoop count tail (acc ++ pages.flatten) (off + count * pages.length)).sleepTime⟩ := by
  induction pages with
  | nil => intro acc off; simp
  | cons p rest ih =>
      intro acc off
      have hp : p.length = count := hfull p (List.mem_cons_self p rest)
      have h1 : ¬ (p.isEmpty = true) := by
        intro hemp
        have h0 := List.length_eq_zero.mpr (List.isEmpty_iff.mp hemp)
        omega
      have h2 : ¬ (p.length < count) := by omega
      have hrest : ∀ q ∈ rest, q.length = count :=
        fun q hq => hfull q (List.mem_cons_of_mem p hq)
      rw [List.map_cons, List.cons_append]
      simp only [Robust.fetchLoop]
      rw [if_neg h1, if_neg h2, ih hrest (acc ++ p) (off + count)]
      have hacc : acc ++ p ++ rest.flatten = acc ++ (p :: rest).flatten := by
        rw [List.flatten_cons, List.append_assoc]
      have hoff : off + count + count * rest.length =
          off + count * (p :: rest).length := by
        rw [List.length_cons]
        ring
      rw [hacc, hoff]
      refine congrArg₂ (FetchRes.mk _) ?_ ?_ <;> simp [List.length_cons]
      omega

/-- Same pass-through for the basic page loop. -/
theorem Basic.fetchLoop_fullPages_basic (count : Nat) (pages : List (List α))
    (hfull : ∀ p ∈ pages, p.length = count) (hc : 0 < count)
    (tail : List (PageOutcome α)) :
    ∀ (acc : List α) (off : Nat),
      Basic.fetchLoop count (pages.map PageOutcome.ok ++ tail) acc off =
        ⟨(Basic.fetchLoop count tail (acc ++ pages.flatten) (off + count * pages.length)).out,
         (Basic.fetchLoop count tail (acc ++ pages.flatten) (off + count * pages.length)).requests
           + pages.length,
         (Basic.fetchLoop count tail (acc ++ pages.flatten) (off + count * pages.length)).sleepTime⟩ := by
  induction pages with
  | nil => intro acc off; simp
  | cons p rest ih =>
      intro acc off
      have hp : p.length = count := hfull p (List.mem_cons_self p rest)
      have h1 : ¬ (p.isEmpty = true) := by
        intro hemp
        have h0 := List.length_eq_zero.mpr (List.isEmpty_iff.mp hemp)
        omega
      have h2 : ¬ (p.length < count) := by omega
      have hrest : ∀ q ∈ rest, q.length = count :=
        fun q hq => hfull q (List.mem_cons_of_mem p hq)
      rw [List.map_cons, List.cons_append]
      simp only [Basic.fetchLoop]
      rw [if_neg h1, if_neg h2, ih hrest (acc ++ p) (off + count)]
      have hacc : acc ++ p ++ rest.flatten = acc ++ (p :: rest).flatten := by
        rw [List.flatten_cons, List.append_assoc]
      have hoff : off + count + count * rest.length =
          off + count * (p :: rest).length := by
        rw [List.length_cons]
        ring
      rw [hacc, hoff]
      refine congrArg₂ (FetchRes.mk _) ?_ ?_ <;> simp [List.length_cons]
      omega

/-- A campaign object as the scripts read it from the listing JSON.  Every
field the scripts access with dict.get is an Option; the defaults applied
at the use sites mirror the Python defaults (id defaults to "N/A",
settings.subject_line to "No Subject", settings.preview_text to "",
send_time to "").  segment_opts records the truthiness of
recipients.segment_opts. -/
structure Campaign where
  id : Option String
  subject_line : Option String
  preview_text : Option String
  send_time : Option String
  list_id : Option String
  segment_opts : Bool
deriving DecidableEq, Repr

/-- A campaign report as read from the reports endpoint JSON, flattened:
each field the scripts access through report.get / nested group .get is an
Option, a missing group reading the same as a group with missing fields.
Rates are rationals standing in for the JSON numbers. -/
structure Report where
  emails_sent : Option Nat
  unique_opens : Option Nat
  open_rate : Option ℚ
  unique_clicks : Option Nat
  click_rate : Option ℚ
  hard_bounces : Option Nat
  soft_bounces : Option Nat
  unsubscribed : Option Nat
deriving DecidableEq, Repr

/-- The outcome of one request attempt of an enrichment fetch (report or
list name): an HTTP response with a status code and a parsed body, a
requests.exceptions.Timeout, or any other exception. -/
inductive ReqOutcome (α : Type) where
  | response (status : Nat) (body : α)
  | timeout
  | exn
deriving DecidableEq, Repr

/-- Whether an attempt outcome is a timeout. -/
def ReqOutcome.isTimeout : ReqOutcome α → Bool
  | .timeout => true
  | _ => false

/-- Result of an enrichment fetch: the returned value, the number of
request attempts actually made, and the total time spent sleeping. -/
structure AttemptRes (α : Type) where
  result : α
  attempts : Nat
  sleepTime : Nat
deriving DecidableEq, Repr

namespace Robust

/-- The `for attempt in range(3)` body of get_campaign_report in
src/mailchimp_csv_generator_robust.py (lines 100-128), one oracle entry
per attempt index.  Status 200 returns the body, 404 returns None (report
not generated yet), any other status returns None after a warning; a
timeout sleeps 2 and retries unless this was the last attempt; any other
exception returns None.  The empty-list case is the `return None` after
the loop. -/
def report_attempts (o : Nat → ReqOutcome Report) : List Nat → AttemptRes (Option Report)
  | [] => ⟨none, 0, 0⟩
  | attempt :: rest =>
      match o attempt with
      | .response status body =>
          if status = 200 then ⟨some body, 1, 0⟩
          else if status = 404 then ⟨none, 1, 0⟩
          else ⟨none, 1, 0⟩
      | .timeout =>
          if attempt < 2 then
            let r := report_attempts o rest
            ⟨r.result, r.attempts + 1, r.sleepTime + 2⟩
          else ⟨none, 1, 0⟩
      | .exn => ⟨none, 1, 0⟩

/-- Robust get_campaign_report: up to 3 attempts. -/
def get_campaign_report (o : Nat → ReqOutcome Report) : AttemptRes (Option Report) :=
  report_attempts o (List.range 3)

/-- The `for attempt in range(3)` body of get_list_name in
src/mailchimp_csv_generator_robust.py (lines 130-151).  Status 200 returns
the name field of the body defaulted to "Unknown", any other status
returns "Unknown"; a timeout sleeps 2 and retries unless this was the last
attempt; any other exception returns "Unknown". -/
def list_name_attempts (o : Nat → ReqOutcome (Option String)) :
    List Nat → AttemptRes String
  | [] => ⟨"Unknown", 0, 0⟩
  | attempt :: rest =>
      match o attempt with
      | .response status body =>
          if status = 200 then ⟨body.getD "Unknown", 1, 0⟩
          else ⟨"Unknown", 1, 0⟩
      | .timeout =>
          if attempt < 2 then
            let r := list_name_attempts o rest
            ⟨r.result, r.attempts + 1, r.sleepTime + 2⟩
          else ⟨"Unknown", 1, 0⟩
      | .exn => ⟨"Unknown", 1, 0⟩

/-- Robust get_list_name: up to 3 attempts. -/
def get_list_name (o : Nat → ReqOutcome (Option String)) : AttemptRes String :=
  list_name_attempts o (List.range 3)

end Robust

namespace Basic

/-- get_campaign_report in src/mailchimp_csv_generator.py (lines 70-79):
a single request, no try/except.  Status 200 returns the body, any other
status returns None after a warning; a timeout or any other exception
propagates to the caller (error). -/
def get_campaign_report (o : ReqOutcome Report) : Except Unit (Option Report) :=
  match o with
  | .response status body =>
      if status = 200 then .ok (some body) else .ok none
  | .timeout => .error ()
  | .exn => .error ()

/-- get_list_name in src/mailchimp_csv_generator.py (lines 81-89): a
single request, no try/except.  Status 200 returns the name field of the
body defaulted to "Unknown", any other status returns "Unknown"; a timeout
or any other exception propagates to the caller (error). -/
def get_list_name (o : ReqOutcome (Option String)) : Except Unit String :=
  match o with
  | .response status body =>
      if status = 200 then .ok (body.getD "Unknown") else .ok "Unknown"
  | .timeout => .error ()
  | .exn => .error ()

end Basic

/-- Rendering of a Python f-string "{x:.2f}": the value rounded to two
decimal places (round-to-nearest; Python rounds the underlying binary
float half-to-even, which agrees on every value the claims evaluate).
The scripts apply it to open_rate * 100 and click_rate * 100. -/
def fmt2 (x : ℚ) : String :=
  let n : Int := Rat.floor (x * 100 + 1 / 2)
  let sign := if n < 0 then "-" else ""
  let m := n.natAbs
  sign ++ toString (m / 100) ++ "." ++
    (if m % 100 < 10 then "0" else "") ++ toString (m % 100)

/-- Shape of a send_time string accepted by
datetime.strptime(s, "%Y-%m-%dT%H:%M:%S%z") in its usual ±HHMM form, e.g.
"2024-01-05T10:00:00+0000".  Field range validation (month at most 12 and
so on) is elided: no claim depends on the exact parse domain, and the same
predicate is used for every embedded script, so the variants always agree
on which strings parse. -/
def sendTimeShape (cs : List Char) : Bool :=
  match cs with
  | [y1, y2, y3, y4, s1, m1, m2, s2, d1, d2, t1, h1, h2, c1, n1, n2, c2, e1, e2,
     g1, z1, z2, z3, z4] =>
      y1.isDigit && y2.isDigit && y3.isDigit && y4.isDigit && (s1 == '-') &&
      m1.isDigit && m2.isDigit && (s2 == '-') && d1.isDigit && d2.isDigit &&
      (t1 == 'T') && h1.isDigit && h2.isDigit && (c1 == ':') &&
      n1.isDigit && n2.isDigit && (c2 == ':') && e1.isDigit && e2.isDigit &&
      ((g1 == '+') || (g1 == '-')) &&
      z1.isDigit && z2.isDigit && z3.isDigit && z4.isDigit
  | _ => false

/-- strftime("%Y-%m-%d %H:%M:%S") applied to a send_time that parsed with
the format above: the date part, a space, the time part. -/
def strftimeDateTime (s : String) : String :=
  s.take 10 ++ " " ++ (s.drop 11).take 8

/-- The send-date formatting block of generate_csv (robust lines 250-257,
basic lines 160-167): an empty send_time renders as "Unknown", a parseable
one is reformatted, an unparseable one is kept as is. -/
def format_send_date (send_time : String) : String :=
  if send_time ≠ "" then
    if sendTimeShape send_time.data then strftimeDateTime send_time else send_time
  else "Unknown"

/-- The date_str computation of find_local_file (robust lines 166-174,
basic lines 104-112): strftime("%Y-%m-%d") of the parsed send_time, or its
first 10 characters when parsing fails and it has at least 10, else
"unknown". -/
def date_str_of (send_time : String) : String :=
  if send_time ≠ "" then
    if sendTimeShape send_time.data then send_time.take 10
    else if send_time.length ≥ 10 then send_time.take 10
    else "unknown"
  else "unknown"

/-- sanitize_filename, identical in all three scripts
(src/mailchimp_csv_generator_robust.py lines 153-159,
src/mailchimp_csv_generator.py lines 91-97,
src/mailchimp_downloader.py lines 99-108): drop the characters the regex
class matches, replace spaces by underscores, truncate to 200
characters. -/
def sanitize_filename (filename : String) : String :=
  let f1 := String.mk (filename.data.filter fun c =>
    !((['<', '>', ':', '\"', '/', '\\', '|', '?', '*'] : List Char).contains c))
  let f2 := String.mk (f1.data.map fun c => if c = ' ' then '_' else c)
  if f2.length > 200 then String.mk (f2.data.take 200) else f2

/-- find_local_file (robust lines 161-183, basic lines 99-121): build the
expected markdown filename from the send date and the sanitized subject,
and return the file's path when it exists, else "File not found".  The
filesystem is the existence predicate fx; Path.absolute is modelled as
prefixing the directory. -/
def find_local_file (fx : String → Bool) (dir : String) (c : Campaign) : String :=
  let send_time := c.send_time.getD ""
  let subject := c.subject_line.getD "No Subject"
  let filename := date_str_of send_time ++ "_" ++ sanitize_filename subject ++ ".md"
  let filepath := dir ++ "/" ++ filename
  if fx filepath then filepath else "File not found"

/-- The fixed CSV header, identical in both generators (robust lines
223-238, basic lines 236-251). -/
def fieldnames : List String :=
  ["Campaign ID", "Subject Line", "Preheader", "Audience/List", "Send Date",
   "Emails Sent", "Unique Opens", "Open Rate (%)", "Unique Clicks",
   "Click Rate (%)", "Hard Bounces", "Soft Bounces", "Unsubscribes",
   "Local File Path"]

/-- One output CSV row, with the same fields in the same order as
fieldnames.  Count fields are the Python ints (serialized by csv.DictWriter
as decimal strings); the two rate fields hold the already formatted
two-decimal strings, as in the row dict the scripts build. -/
structure Row where
  campaignId : String
  subjectLine : String
  preheader : String
  audience : String
  sendDate : String
  emailsSent : Nat
  uniqueOpens : Nat
  openRate : String
  uniqueClicks : Nat
  clickRate : String
  hardBounces : Nat
  softBounces : Nat
  unsubscribes : Nat
  localFilePath : String
deriving DecidableEq, Repr

/-- The environment a generate_csv run sees: the value the list-name fetch
produces for a list id, the value the report fetch produces for a campaign
id (each abstracting the corresponding fetch function, tied back to it in
the claims that need it), the filesystem existence predicate, whether the
newsletters directory exists, and its path. -/
structure Env where
  get_list_name : String → String
  get_campaign_report : String → Option Report
  file_exists : String → Bool
  dir_exists : Bool
  dir : String

/-- The audience resolution block of generate_csv (robust lines 259-271,
basic lines 169-181): a campaign without a list id reads "Unknown"; with
one, the list cache is consulted, a miss calling the list-name fetch and
appending to the cache; a segmented campaign gets " (Segmented)" appended.
Returns the audience string, the updated cache, and the list ids passed to
the list-name fetch by this step (empty or a singleton). -/
def resolve_audience (getName : String → String) (cache : List (String × String))
    (c : Campaign) : String × List (String × String) × List String :=
  let base :=
    match c.list_id with
    | some lid =>
        match cache.lookup lid with
        | some name => (name, cache, ([] : List String))
        | none =>
            let name := getName lid
            (name, cache ++ [(lid, name)], [lid])
    | none => ("Unknown", cache, ([] : List String))
  let audience := if c.segment_opts then base.1 ++ " (Segmented)" else base.1
  (audience, base.2.1, base.2.2)

/-- The row-building part of the loop body of generate_csv, verbatim
identical in the two generators (robust lines 240-319, basic lines
150-229) once the audience has been resolved and the report fetched:
defaults for missing fields, send-date formatting, metrics extraction
(absent report reads as all zero), local file resolution, and the row
dict. -/
def buildRow (env : Env) (audience : String) (report : Option Report)
    (c : Campaign) : Row :=
  let campaign_id := c.id.getD "N/A"
  let subject := c.subject_line.getD "No Subject"
  let preheader := c.preview_text.getD ""
  let send_time := c.send_time.getD ""
  let formatted_date := format_send_date send_time
  let m :=
    match report with
    | some r =>
        (r.emails_sent.getD 0, r.unique_opens.getD 0, (r.open_rate.getD 0) * 100,
         r.unique_clicks.getD 0, (r.click_rate.getD 0) * 100,
         r.hard_bounces.getD 0, r.soft_bounces.getD 0, r.unsubscribed.getD 0)
    | none => (0, 0, (0 : ℚ), 0, (0 : ℚ), 0, 0, 0)
  let local_file :=
    if env.dir_exists then find_local_file env.file_exists env.dir c
    else "Directory not found"
  { campaignId := campaign_id
    subjectLine := subject
    preheader := preheader
    audience := audience
    sendDate := formatted_date
    emailsSent := m.1
    uniqueOpens := m.2.1
    openRate := fmt2 m.2.2.1
    uniqueClicks := m.2.2.2.1
    clickRate := fmt2 m.2.2.2.2.1
    hardBounces := m.2.2.2.2.2.1
    softBounces := m.2.2.2.2.2.2.1
    unsubscribes := m.2.2.2.2.2.2.2
    localFilePath := local_file }

/-- The mutable state of one generate_csv run: the accumulated csv_data
rows, the list-name cache, the output file contents (none until the first
write; then the header and the rows last written), and the log of list ids
passed to the list-name fetch. -/
structure GenState where
  csv_data : List Row
  list_cache : List (String × String)
  file : Option (List String × List Row)
  list_calls : List String
deriving DecidableEq, Repr

/-- The state at the start of a run. -/
def GenState.init : GenState := ⟨[], [], none, []⟩

/-- One iteration of the generate_csv loop body without the checkpoint:
resolve the audience (possibly calling the list-name fetch), fetch the
report, build the row, append it to csv_data. -/
def process_campaign (env : Env) (st : GenState) (c : Campaign) : GenState :=
  let r := resolve_audience env.get_list_name st.list_cache c
  let report := env.get_campaign_report (c.id.getD "N/A")
  let row := buildRow env r.1 report c
  { st with
      csv_data := st.csv_data ++ [row]
      list_cache := r.2.1
      list_calls := st.list_calls ++ r.2.2 }

namespace Robust

/-- The enumerate(campaigns, 1) loop of generate_csv in
src/mailchimp_csv_generator_robust.py (lines 240-331): process each
campaign, and when the 1-based index i satisfies i % save_interval == 0,
save_progress rewrites the output file with the header and the full
csv_data accumulated so far. -/
def gen_loop (env : Env) (N : Nat) : List Campaign → Nat → GenState → GenState
  | [], _, st => st
  | c :: rest, i, st =>
      let st1 := process_campaign env st c
      let st2 :=
        if (i + 1) % N = 0 then { st1 with file := some (fieldnames, st1.csv_data) }
        else st1
      gen_loop env N rest (i + 1) st2

/-- generate_csv in src/mailchimp_csv_generator_robust.py (lines 194-343),
given the fetched campaign list: an empty list returns before touching the
file; otherwise the loop runs and a final save_progress unconditionally
rewrites the file with the header and all rows. -/
def generate_csv (env : Env) (N : Nat) (campaigns : List Campaign) : GenState :=
  if campaigns.isEmpty then GenState.init
  else
    let st := gen_loop env N campaigns 0 GenState.init
    { st with file := some (fieldnames, st.csv_data) }

end Robust

namespace Basic

/-- The enumerate(campaigns, 1) loop of generate_csv in
src/mailchimp_csv_generator.py (lines 150-232): process each campaign; no
intermediate saving. -/
def gen_loop (env : Env) : List Campaign → GenState → GenState
  | [], st => st
  | c :: rest, st => gen_loop env rest (process_campaign env st c)

/-- generate_csv in src/mailchimp_csv_generator.py (lines 123-264), given
the fetched campaign list: an empty list returns before touching the file;
otherwise the loop runs and the file is written once at the end with the
header and all rows. -/
def generate_csv (env : Env) (campaigns : List Campaign) : GenState :=
  if campaigns.isEmpty then GenState.init
  else
    let st := gen_loop env campaigns GenState.init
    { st with file := some (fieldnames, st.csv_data) }

end Basic

/-- The robust script end to end: fetch the campaign list with
get_all_campaigns against the page oracle, then run generate_csv on it;
none when the fetch does not return (exhausted oracle). -/
def Robust.pipeline (oracle : List (PageOutcome Campaign)) (env : Env)
    (N : Nat) : Option GenState :=
  match (Robust.get_all_campaigns oracle).out with
  | .returned cs => some (Robust.generate_csv env N cs)
  | _ => none

/-- The basic script end to end: none when the fetch raises or does not
return. -/
def Basic.pipeline (oracle : List (PageOutcome Campaign)) (env : Env) :
    Option GenState :=
  match (Basic.get_all_campaigns oracle).out with
  | .returned cs => some (Basic.generate_csv env cs)
  | _ => none

/-- Looking a key up in an extended association list succeeds whenever it
succeeded in the original list. -/
theorem lookup_append_isSome (cache e : List (String × String)) (k : String)
    (h : (cache.lookup k).isSome) : ((cache ++ e).lookup k).isSome := by
  induction cache with
  | nil => simp [List.lookup] at h
  | cons p rest ih =>
      obtain ⟨a, b⟩ := p
      simp only [List.cons_append, List.lookup] at h ⊢
      cases hk : (k == a) with
      | true => simp
      | false =>
          simp only [hk] at h ⊢
          exact ih h

/-- Looking up the key just appended to an association list succeeds. -/
theorem lookup_append_self_isSome (cache : List (String × String))
    (k v : String) : ((cache ++ [(k, v)]).lookup k).isSome := by
  induction cache with
  | nil => simp [List.lookup]
  | cons p rest ih =>
      obtain ⟨a, b⟩ := p
      simp only [List.cons_append, List.lookup]
      cases hk : (k == a) with
      | true => simp
      | false =>
          simp only [hk]
          exact ih

/-- process_campaign appends exactly one row to csv_data. -/
theorem process_campaign_csv (env : Env) (st : GenState) (c : Campaign) :
    (process_campaign env st c).csv_data =
      st.csv_data ++ [buildRow env
        (resolve_audience env.get_list_name st.list_cache c).1
        (env.get_campaign_report (c.id.getD "N/A")) c] := rfl

/-- The robust loop over an appended list is the loop over the first part
followed by the loop over the second, with the index advanced. -/
theorem Robust.gen_loop_append (env : Env) (N : Nat) (xs ys : List Campaign) :
    ∀ (i : Nat) (st : GenState),
      Robust.gen_loop env N (xs ++ ys) i st =
        Robust.gen_loop env N ys (i + xs.length) (Robust.gen_loop env N xs i st) := by
  induction xs with
  | nil => intro i st; simp [Robust.gen_loop]
  | cons c rest ih =>
      intro i st
      rw [List.cons_append]
      simp only [Robust.gen_loop]
      rw [ih]
      have hidx : i + 1 + rest.length = i + (rest.length + 1) := by omega
      rw [hidx, List.length_cons]

/-- The robust loop only appends to csv_data. -/
theorem Robust.gen_loop_csv_prefix (env : Env) (N : Nat) (l : List Campaign) :
    ∀ (i : Nat) (st : GenState), ∃ ext,
      (Robust.gen_loop env N l i st).csv_data = st.csv_data ++ ext := by
  induction l with
  | nil => intro i st; exact ⟨[], by simp [Robust.gen_loop]⟩
  | cons c rest ih =>
      intro i st
      simp only [Robust.gen_loop]
      split
      · obtain ⟨ext, hext⟩ := ih (i + 1)
          { process_campaign env st c with
              file := some (fieldnames, (process_campaign env st c).csv_data) }
        refine ⟨[buildRow env (resolve_audience env.get_list_name st.list_cache c).1
          (env.get_campaign_report (c.id.getD "N/A")) c] ++ ext, ?_⟩
        rw [hext, ← List.append_assoc]
        rfl
      · obtain ⟨ext, hext⟩ := ih (i + 1) (process_campaign env st c)
        refine ⟨[buildRow env (resolve_audience env.get_list_name st.list_cache c).1
          (env.get_campaign_report (c.id.getD "N/A")) c] ++ ext, ?_⟩
        rw [hext, ← List.append_assoc]
        rfl

/-- The robust loop adds one row per campaign. -/
theorem Robust.gen_loop_csv_length (env : Env) (N : Nat) (l : List Campaign) :
    ∀ (i : Nat) (st : GenState),
      (Robust.gen_loop env N l i st).csv_data.length =
        st.csv_data.length + l.length := by
  induction l with
  | nil => intro i st; simp [Robust.gen_loop]
  | cons c rest ih =>
      intro i st
      simp only [Robust.gen_loop]
      split
      · rw [ih]
        rw [show ({ process_campaign env st c with
              file := some (fieldnames, (process_campaign env st c).csv_data) } :
            GenState).csv_data = (process_campaign env st c).csv_data from rfl]
        rw [process_campaign_csv]
        simp
        omega
      · rw [ih, process_campaign_csv]
        simp
        omega

/-- If the 1-based index of the last processed campaign is divisible by
the save interval, the run ends with the file just rewritten to the header
and all rows accumulated so far. -/
theorem Robust.gen_loop_checkpoint (env : Env) (N : Nat) (l : List Campaign) :
    ∀ (i : Nat) (st : GenState), l ≠ [] → (i + l.length) % N = 0 →
      (Robust.gen_loop env N l i st).file =
        some (fieldnames, (Robust.gen_loop env N l i st).csv_data) := by
  induction l with
  | nil => intro i st h _; exact absurd rfl h
  | cons c rest ih =>
      intro i st _ hmod
      by_cases hrest : rest = []
      · subst hrest
        have hmod1 : (i + 1) % N = 0 := by
          simpa using hmod
        simp [Robust.gen_loop, hmod1]
      · have hmod' : (i + 1 + rest.length) % N = 0 := by
          have hx : i + (c :: rest).length = i + 1 + rest.length := by
            rw [List.length_cons]
            omega
          rwa [hx] at hmod
        simp only [Robust.gen_loop]
        split
        · exact ih (i + 1) _ hrest hmod'
        · exact ih (i + 1) _ hrest hmod'

/-- The Campaign ID column of the rows the robust loop produces is exactly
the id of each processed campaign, defaulted to "N/A", in order. -/
theorem Robust.gen_loop_map_id (env : Env) (N : Nat) (l : List Campaign) :
    ∀ (i : Nat) (st : GenState),
      (Robust.gen_loop env N l i st).csv_data.map Row.campaignId =
        st.csv_data.map Row.campaignId ++ l.map (fun c => c.id.getD "N/A") := by
  induction l with
  | nil => intro i st; simp [Robust.gen_loop]
  | cons c rest ih =>
      intro i st
      simp only [Robust.gen_loop]
      split <;>
      · rw [ih]
        simp [process_campaign_csv, buildRow]

/-- The list-call discipline of a run state: no list id was passed to the
list-name fetch twice, and every id passed to it is now cached. -/
def cacheOk (st : GenState) : Prop :=
  st.list_calls.Nodup ∧ ∀ l ∈ st.list_calls, (st.list_cache.lookup l).isSome

/-- One loop iteration preserves the list-call discipline: the fetch is
called only on a cache miss, and the fetched name is cached at once. -/
theorem process_campaign_cacheOk (env : Env) (st : GenState) (c : Campaign)
    (h : cacheOk st) : cacheOk (process_campaign env st c) := by
  obtain ⟨hnd, hmem⟩ := h
  cases hl : c.list_id with
  | none =>
      have hcalls : (process_campaign env st c).list_calls = st.list_calls := by
        simp [process_campaign, resolve_audience, hl]
      have hcache : (process_campaign env st c).list_cache = st.list_cache := by
        simp [process_campaign, resolve_audience, hl]
      rw [cacheOk, hcalls, hcache]
      exact ⟨hnd, hmem⟩
  | some lid =>
      cases hc : (st.list_cache.lookup lid) with
      | some name =>
          have hcalls : (process_campaign env st c).list_calls = st.list_calls := by
            simp [process_campaign, resolve_audience, hl, hc]
          have hcache : (process_campaign env st c).list_cache = st.list_cache := by
            simp [process_campaign, resolve_audience, hl, hc]
          rw [cacheOk, hcalls, hcache]
          exact ⟨hnd, hmem⟩
      | none =>
          have hnotin : lid ∉ st.list_calls := by
            intro hin
            have hs := hmem lid hin
            rw [hc] at hs
            simp at hs
          have hcalls : (process_campaign env st c).list_calls =
              st.list_calls ++ [lid] := by
            simp [process_campaign, resolve_audience, hl, hc]
          have hcache : (process_campaign env st c).list_cache =
              st.list_cache ++ [(lid, env.get_list_name lid)] := by
            simp [process_campaign, resolve_audience, hl, hc]
          rw [cacheOk, hcalls, hcache]
          constructor
          · rw [List.nodup_append]
            refine ⟨hnd, List.nodup_singleton lid, ?_⟩
            intro a ha hb
            simp at hb
            subst hb
            exact hnotin ha
          · intro l hml
            rw [List.mem_append, List.mem_singleton] at hml
            cases hml with
            | inl hin => exact lookup_append_isSome _ _ _ (hmem l hin)
            | inr heq =>
                subst heq
                exact lookup_append_self_isSome _ _ _

/-- The robust loop preserves the list-call discipline; the checkpoint
touches only the file component. -/
theorem Robust.gen_loop_cacheOk (env : Env) (N : Nat) (l : List Campaign) :
    ∀ (i : Nat) (st : GenState), cacheOk st →
      cacheOk (Robust.gen_loop env N l i st) := by
  induction l with
  | nil => intro i st h; exact h
  | cons c rest ih =>
      intro i st h
      simp only [Robust.gen_loop]
      have hstep := process_campaign_cacheOk env st c h
      split
      · exact ih (i + 1) _ hstep
      · exact ih (i + 1) _ hstep

/-- The basic loop preserves the list-call discipline. -/
theorem Basic.gen_loop_cacheOk_basic (env : Env) (l : List Campaign) :
    ∀ (st : GenState), cacheOk st → cacheOk (Basic.gen_loop env l st) := by
  induction l with
  | nil => intro st h; exact h
  | cons c rest ih =>
      intro st h
      exact ih _ (process_campaign_cacheOk env st c h)

/-- The non-file components of a run state. -/
def GenState.core (st : GenState) :
    List Row × List (String × String) × List String :=
  (st.csv_data, st.list_cache, st.list_calls)

/-- process_campaign reads and writes only the non-file components. -/
theorem process_campaign_file (env : Env) (st : GenState) (c : Campaign)
    (f : Option (List String × List Row)) :
    process_campaign env { st with file := f } c =
      { process_campaign env st c with file := f } := rfl

/-- The file component of the start state does not influence the non-file
components the robust loop computes. -/
theorem Robust.gen_loop_core_file (env : Env) (N : Nat) (l : List Campaign) :
    ∀ (i : Nat) (st : GenState) (f : Option (List String × List Row)),
      (Robust.gen_loop env N l i { st with file := f }).core =
        (Robust.gen_loop env N l i st).core := by
  induction l with
  | nil => intro i st f; rfl
  | cons c rest ih =>
      intro i st f
      simp only [Robust.gen_loop, process_campaign_file]
      split
      · rfl
      · exact ih (i + 1) (process_campaign env st c) f

/-- With the same environment, the robust loop computes the same rows,
cache and call log as the basic loop: they differ only in the intermediate
file writes. -/
theorem gen_loop_core_eq (env : Env) (N : Nat) (l : List Campaign) :
    ∀ (i : Nat) (st : GenState),
      (Robust.gen_loop env N l i st).core = (Basic.gen_loop env l st).core := by
  induction l with
  | nil => intro i st; rfl
  | cons c rest ih =>
      intro i st
      simp only [Robust.gen_loop, Basic.gen_loop]
      split
      · rw [show ({ process_campaign env st c with
            file := some (fieldnames, (process_campaign env st c).csv_data) } :
              GenState) =
            { process_campaign env st c with
                file := some (fieldnames, (process_campaign env st c).csv_data) }
          from rfl]
        rw [show (process_campaign env st c) =
            { process_campaign env st c with file := (process_campaign env st c).file }
          from rfl]
        rw [Robust.gen_loop_core_file]
        exact ih (i + 1) _
      · exact ih (i + 1) _

/-- Under an immediately successful response the robust report fetch
returns the body after one attempt without sleeping. -/
theorem Robust.get_campaign_report_success (b : Report) :
    Robust.get_campaign_report (fun _ => ReqOutcome.response 200 b) =
      ⟨some b, 1, 0⟩ := rfl

/-- Under an immediately successful response the robust list-name fetch
returns the name after one attempt without sleeping. -/
theorem Robust.get_list_name_success (b : Option String) :
    Robust.get_list_name (fun _ => ReqOutcome.response 200 b) =
      ⟨b.getD "Unknown", 1, 0⟩ := rfl

/-- Under a successful response the basic report fetch returns the
body. -/
theorem Basic.get_campaign_report_success_basic (b : Report) :
    Basic.get_campaign_report (ReqOutcome.response 200 b) = .ok (some b) := rfl

/-- Under a successful response the basic list-name fetch returns the
name. -/
theorem Basic.get_list_name_success_basic (b : Option String) :
    Basic.get_list_name (ReqOutcome.response 200 b) = .ok (b.getD "Unknown") := rfl

/-- Full behavioural description of the robust report fetch: between 1 and
3 attempts; 2 time units slept per retry; every attempt before the last
was a timeout (so nothing but a timeout is ever retried); and the returned
value is determined by the last attempt: body on a 200, None on any other
status, timeout or exception.  Totality of the function is the
never-raises property. -/
theorem Robust.report_fetch_spec (o : Nat → ReqOutcome Report) :
    (1 ≤ (Robust.get_campaign_report o).attempts ∧
      (Robust.get_campaign_report o).attempts ≤ 3) ∧
    (Robust.get_campaign_report o).sleepTime =
      2 * ((Robust.get_campaign_report o).attempts - 1) ∧
    ((List.range ((Robust.get_campaign_report o).attempts - 1)).all
      fun j => (o j).isTimeout) = true ∧
    (Robust.get_campaign_report o).result =
      (match o ((Robust.get_campaign_report o).attempts - 1) with
       | .response s b => if s = 200 then some b else none
       | .timeout => none
       | .exn => none) := by
  have hr : (List.range 3 : List Nat) = [0, 1, 2] := rfl
  simp only [Robust.get_campaign_report, hr]
  cases h0 : o 0 with
  | response s b =>
      simp only [Robust.report_attempts, h0]
      split_ifs with h200 h404 <;> simp [h0, h200]
  | exn => simp [Robust.report_attempts, h0]
  | timeout =>
      cases h1 : o 1 with
      | response s b =>
          simp only [Robust.report_attempts, h0, h1]
          split_ifs <;> simp_all [ReqOutcome.isTimeout]
      | exn => simp [Robust.report_attempts, h0, h1, ReqOutcome.isTimeout]
      | timeout =>
          cases h2 : o 2 with
          | response s b =>
              simp only [Robust.report_attempts, h0, h1, h2]
              split_ifs <;> simp_all [ReqOutcome.isTimeout, List.range_succ]
          | exn =>
              simp [Robust.report_attempts, h0, h1, h2, ReqOutcome.isTimeout,
                List.range_succ]
          | timeout =>
              simp [Robust.report_attempts, h0, h1, h2, ReqOutcome.isTimeout,
                List.range_succ]

/-- Full behavioural description of the robust list-name fetch: between 1
and 3 attempts; 2 time units slept per retry; every attempt before the
last was a timeout; and the returned value is determined by the last
attempt: the name field defaulted to "Unknown" on a 200, "Unknown" on any
other status, timeout or exception. -/
theorem Robust.list_name_fetch_spec (o : Nat → ReqOutcome (Option String)) :
    (1 ≤ (Robust.get_list_name o).attempts ∧
      (Robust.get_list_name o).attempts ≤ 3) ∧
    (Robust.get_list_name o).sleepTime =
      2 * ((Robust.get_list_name o).attempts - 1) ∧
    ((List.range ((Robust.get_list_name o).attempts - 1)).all
      fun j => (o j).isTimeout) = true ∧
    (Robust.get_list_name o).result =
      (match o ((Robust.get_list_name o).attempts - 1) with
       | .response s b => if s = 200 then b.getD "Unknown" else "Unknown"
       | .timeout => "Unknown"
       | .exn => "Unknown") := by
  have hr : (List.range 3 : List Nat) = [0, 1, 2] := rfl
  simp only [Robust.get_list_name, hr]
  cases h0 : o 0 with
  | response s b =>
      simp only [Robust.list_name_attempts, h0]
      split_ifs <;> simp_all [ReqOutcome.isTimeout]
  | exn => simp [Robust.list_name_attempts, h0]
  | timeout =>
      cases h1 : o 1 with
      | response s b =>
          simp only [Robust.list_name_attempts, h0, h1]
          split_ifs <;> simp_all [ReqOutcome.isTimeout]
      | exn => simp [Robust.list_name_attempts, h0, h1, ReqOutcome.isTimeout]
      | timeout =>
          cases h2 : o 2 with
          | response s b =>
              simp only [Robust.list_name_attempts, h0, h1, h2]
              split_ifs <;> simp_all [ReqOutcome.isTimeout, List.range_succ]
          | exn =>
              simp [Robust.list_name_attempts, h0, h1, h2, ReqOutcome.isTimeout,
                List.range_succ]
          | timeout =>
              simp [Robust.list_name_attempts, h0, h1, h2, ReqOutcome.isTimeout,
                List.range_succ]

/-- Formatting zero to two decimals gives "0.00", as Python renders
f-string "{0:.2f}". -/
theorem fmt2_zero : fmt2 0 = "0.00" := by
  have h : Rat.floor ((0 : ℚ) * 100 + 1 / 2) = 0 := by
    have hx : ((0 : ℚ) * 100 + 1 / 2) = 1 / 2 := by norm_num
    rw [hx, Rat.floor_def']
    norm_num
  simp only [fmt2, h]
  decide

/-- A 404 on the first attempt makes the robust report fetch return None
immediately: the missing report is not an error and is not retried. -/
theorem Robust.report_404 (o : Nat → ReqOutcome Report) (b : Report)
    (h : o 0 = ReqOutcome.response 404 b) :
    Robust.get_campaign_report o = ⟨none, 1, 0⟩ := by
  have hr : (List.range 3 : List Nat) = [0, 1, 2] := rfl
  simp [Robust.get_campaign_report, hr, Robust.report_attempts, h]

/-- A sample environment: the report fetch finds nothing, the newsletters
directory is absent. -/
def env0 : Env :=
  { get_list_name := fun _ => "Readers"
    get_campaign_report := fun _ => none
    file_exists := fun _ => false
    dir_exists := false
    dir := "mailchimp_newsletters" }

/-- A sample campaign. -/
def c0 : Campaign :=
  ⟨some "abc123", some "Hello World", some "pre",
   some "2024-01-05T10:00:00+0000", some "list1", false⟩

/-- A sample campaign whose id will occur twice in a listing page. -/
def c9camp : Campaign :=
  ⟨some "dup", some "Hello", none, none, some "list1", false⟩

/-- A sample report body returned with a 404 status. -/
def rpt404 : Report := ⟨none, none, none, none, none, none, none, none⟩

/-- Rows of the robust loop agree with rows of the basic loop on the same
environment and start state. -/
theorem gen_loop_csv_eq (env : Env) (N : Nat) (l : List Campaign) (i : Nat)
    (st : GenState) :
    (Robust.gen_loop env N l i st).csv_data = (Basic.gen_loop env l st).csv_data :=
  congrArg (fun t => t.1) (gen_loop_core_eq env N l i st)

/-- The final file of the basic generator equals the final file of the
robust generator on the same environment and campaign list, whatever the
save interval: the final unconditional save overwrites every checkpoint. -/
theorem generate_csv_file_eq (env : Env) (N : Nat) (cs : List Campaign) :
    (Basic.generate_csv env cs).file = (Robust.generate_csv env N cs).file := by
  rw [Basic.generate_csv, Robust.generate_csv]
  split
  · rfl
  · show some (fieldnames, (Basic.gen_loop env cs GenState.init).csv_data) =
      some (fieldnames, (Robust.gen_loop env N cs 0 GenState.init).csv_data)
    rw [gen_loop_csv_eq]

/-- C1, counterexample: a remote holding exactly 1000 campaigns (one full
page) is fetched with 2 page requests, not ceil(1000/1000) = 1: after the
full page the loop must issue one more request and see the empty page. -/
theorem c1_counterexample :
    (Robust.get_all_campaigns (honestOracle (List.replicate 1000 c0))).requests = 2 ∧
    ((List.replicate 1000 c0).length + 1000 - 1) / 1000 = 1 ∧
    (2 : Nat) ≠ 1 := by
  refine ⟨?_, ?_, by norm_num⟩
  · have h := Robust.fetchLoop_honest (List.replicate 1000 c0) [] 0
    rw [Robust.get_all_campaigns, h]
    show (List.replicate 1000 c0).length / 1000 + 1 = 2
    rw [List.length_replicate]
  · rw [List.length_replicate]

/-- C1, amended: against a fully successful remote holding exactly the
list remote of size k, both generators return exactly the k campaigns,
never sleep, and issue k / 1000 + 1 page requests - that is ceil(k / 1000)
when 1000 does not divide k, and one more than ceil(k / 1000) when it does
(including k = 0): after only full pages the loop needs one further
request to observe a short or empty page. -/
theorem c1_pagination (remote : List Campaign) :
    Robust.get_all_campaigns (honestOracle remote) =
      ⟨.returned remote, remote.length / 1000 + 1, 0⟩ ∧
    Basic.get_all_campaigns (honestOracle remote) =
      ⟨.returned remote, remote.length / 1000 + 1, 0⟩ := by
  constructor
  · rw [Robust.get_all_campaigns]
    simpa using Robust.fetchLoop_honest remote [] 0
  · rw [Basic.get_all_campaigns, honestOracle_eq_map, fetchLoop_basic_eq_robust,
      ← honestOracle_eq_map]
    simpa using Robust.fetchLoop_honest remote [] 0

/-- C7, counterexample: on a non-timeout exception during the first page
request, the basic generator's get_all_campaigns does not return the
accumulated campaigns (here the empty list): the exception propagates. -/
theorem c7_counterexample :
    (Basic.get_all_campaigns ([PageOutcome.exn] : List (PageOutcome Campaign))).out =
      FetchOut.raised ∧
    FetchOut.raised ≠ FetchOut.returned ([] : List Campaign) := by
  constructor
  · rfl
  · intro h
    exact FetchOut.noConfusion h

/-- C7, amended: after any run of full pages, a non-200 status stops
either generator's page loop at once, returning exactly the campaigns
accumulated so far; a non-timeout exception does the same in the robust
generator, while in the basic generator it propagates instead of
returning the accumulated campaigns. -/
theorem c7_stop_on_error (pages : List (List Campaign))
    (hfull : ∀ p ∈ pages, p.length = 1000)
    (rest : List (PageOutcome Campaign)) :
    Robust.get_all_campaigns (pages.map PageOutcome.ok ++ PageOutcome.httpError :: rest) =
      ⟨.returned pages.flatten, pages.length + 1, 0⟩ ∧
    Robust.get_all_campaigns (pages.map PageOutcome.ok ++ PageOutcome.exn :: rest) =
      ⟨.returned pages.flatten, pages.length + 1, 0⟩ ∧
    Basic.get_all_campaigns (pages.map PageOutcome.ok ++ PageOutcome.httpError :: rest) =
      ⟨.returned pages.flatten, pages.length + 1, 0⟩ ∧
    (Basic.get_all_campaigns (pages.map PageOutcome.ok ++ PageOutcome.exn :: rest)).out =
      FetchOut.raised := by
  refine ⟨?_, ?_, ?_, ?_⟩
  · rw [Robust.get_all_campaigns,
      Robust.fetchLoop_fullPages 1000 pages hfull (by norm_num)]
    simp [Robust.fetchLoop]
    omega
  · rw [Robust.get_all_campaigns,
      Robust.fetchLoop_fullPages 1000 pages hfull (by norm_num)]
    simp [Robust.fetchLoop]
    omega
  · rw [Basic.get_all_campaigns,
      Basic.fetchLoop_fullPages_basic 1000 pages hfull (by norm_num)]
    simp [Basic.fetchLoop]
    omega
  · rw [Basic.get_all_campaigns,
      Basic.fetchLoop_fullPages_basic 1000 pages hfull (by norm_num)]
    simp [Basic.fetchLoop]

/-- C7, witness for the amended theorem at pages = [], rest = []. -/
theorem c7_stop_on_error_witness :
    (∀ p ∈ ([] : List (List Campaign)), p.length = 1000) ∧
    Robust.get_all_campaigns ([PageOutcome.httpError] : List (PageOutcome Campaign)) =
      ⟨.returned [], 1, 0⟩ :=
  ⟨by simp, (c7_stop_on_error [] (by simp) []).1⟩

/-- C8, confirmed: wherever the robust page loop stands (any accumulated
list, any offset, any remaining oracle), t consecutive timeouts make it
re-request the same page t more times, sleeping 2 per retry, with the
accumulated campaigns and the offset unchanged; t is arbitrary, so no
bound is placed on the number of timeout retries. -/
theorem c8_timeout_retry (t : Nat) (rest : List (PageOutcome Campaign))
    (acc : List Campaign) (off : Nat) :
    Robust.fetchLoop 1000 (List.replicate t PageOutcome.timeout ++ rest) acc off =
      ⟨(Robust.fetchLoop 1000 rest acc off).out,
       (Robust.fetchLoop 1000 rest acc off).requests + t,
       (Robust.fetchLoop 1000 rest acc off).sleepTime + 2 * t⟩ :=
  Robust.fetchLoop_timeouts 1000 t rest acc off

/-- C2, confirmed: in a robust generate_csv run with save interval N over
a list of campaigns, for any 1-based index i that is a multiple of N, the
state immediately after processing the i-th campaign (the loop run over
the first i campaigns) has the output file rewritten to exactly the header
plus the i rows accumulated so far - which are the first i rows of the
full run; and when the campaign list is nonempty, the run ends with the
file unconditionally rewritten to the header plus all rows. -/
theorem c2_checkpoint (env : Env) (N i : Nat) (campaigns : List Campaign)
    (hN : 0 < N) (h1 : 1 ≤ i) (hik : i ≤ campaigns.length) (hmod : i % N = 0) :
    ((Robust.gen_loop env N (campaigns.take i) 0 GenState.init).file =
        some (fieldnames,
          (Robust.gen_loop env N (campaigns.take i) 0 GenState.init).csv_data)) ∧
    ((Robust.gen_loop env N (campaigns.take i) 0 GenState.init).csv_data.length = i) ∧
    ((Robust.gen_loop env N (campaigns.take i) 0 GenState.init).csv_data =
        (Robust.gen_loop env N campaigns 0 GenState.init).csv_data.take i) ∧
    (campaigns ≠ [] →
      (Robust.generate_csv env N campaigns).file =
        some (fieldnames,
          (Robust.gen_loop env N campaigns 0 GenState.init).csv_data)) := by
  have htl : (campaigns.take i).length = i := by
    rw [List.length_take]
    omega
  have htne : campaigns.take i ≠ [] := by
    intro hz
    rw [hz] at htl
    simp at htl
    omega
  have hmod0 : (0 + (campaigns.take i).length) % N = 0 := by
    rw [htl]
    simpa using hmod
  have hplen : (Robust.gen_loop env N (campaigns.take i) 0 GenState.init).csv_data.length = i := by
    rw [Robust.gen_loop_csv_length, htl]
    simp [GenState.init]
  refine ⟨Robust.gen_loop_checkpoint env N (campaigns.take i) 0 GenState.init htne hmod0,
    hplen, ?_, ?_⟩
  · have hsplit := Robust.gen_loop_append env N (campaigns.take i) (campaigns.drop i)
      0 GenState.init
    rw [List.take_append_drop] at hsplit
    obtain ⟨ext, hext⟩ := Robust.gen_loop_csv_prefix env N (campaigns.drop i)
      (0 + (campaigns.take i).length)
      (Robust.gen_loop env N (campaigns.take i) 0 GenState.init)
    rw [hsplit, hext, List.take_left' hplen]
  · intro hne
    rw [Robust.generate_csv, if_neg (by simpa [List.isEmpty_iff] using hne)]

/-- C2, witness: one campaign, save interval 1, checkpoint after row 1. -/
theorem c2_checkpoint_witness :
    (0 < 1 ∧ 1 ≤ 1 ∧ 1 ≤ ([c0] : List Campaign).length ∧ 1 % 1 = 0) ∧
    (Robust.gen_loop env0 1 (([c0] : List Campaign).take 1) 0 GenState.init).file =
      some (fieldnames,
        (Robust.gen_loop env0 1 (([c0] : List Campaign).take 1) 0 GenState.init).csv_data) :=
  ⟨⟨by norm_num, by norm_num, by simp, by norm_num⟩,
   (c2_checkpoint env0 1 1 [c0] (by norm_num) (by norm_num) (by simp) (by norm_num)).1⟩

/-- C3, confirmed: for any attempt oracles, the robust report fetch and
the robust list-name fetch each make between 1 and 3 attempts, sleep
exactly 2 time units per retry (so total sleep 2 * (attempts - 1)), retry
only after a timeout (every attempt before the last was a timeout, hence
a non-timeout failure is never retried), and return the value determined
by the last attempt - the body on a 200, and the default (None for the
report, "Unknown" for the list name) on any other status, timeout or
exception; both functions are total, so no exception reaches the
caller. -/
theorem c3_enrichment_retry (oR : Nat → ReqOutcome Report)
    (oL : Nat → ReqOutcome (Option String)) :
    ((1 ≤ (Robust.get_campaign_report oR).attempts ∧
        (Robust.get_campaign_report oR).attempts ≤ 3) ∧
      (Robust.get_campaign_report oR).sleepTime =
        2 * ((Robust.get_campaign_report oR).attempts - 1) ∧
      ((List.range ((Robust.get_campaign_report oR).attempts - 1)).all
        fun j => (oR j).isTimeout) = true ∧
      (Robust.get_campaign_report oR).result =
        (match oR ((Robust.get_campaign_report oR).attempts - 1) with
         | .response s b => if s = 200 then some b else none
         | .timeout => none
         | .exn => none)) ∧
    ((1 ≤ (Robust.get_list_name oL).attempts ∧
        (Robust.get_list_name oL).attempts ≤ 3) ∧
      (Robust.get_list_name oL).sleepTime =
        2 * ((Robust.get_list_name oL).attempts - 1) ∧
      ((List.range ((Robust.get_list_name oL).attempts - 1)).all
        fun j => (oL j).isTimeout) = true ∧
      (Robust.get_list_name oL).result =
        (match oL ((Robust.get_list_name oL).attempts - 1) with
         | .response s b => if s = 200 then b.getD "Unknown" else "Unknown"
         | .timeout => "Unknown"
         | .exn => "Unknown")) :=
  ⟨Robust.report_fetch_spec oR, Robust.list_name_fetch_spec oL⟩

/-- C4, counterexample: with the report fetch answering 404, the exported
row's "Open Rate (%)" cell reads "0.00" - zero formatted to two decimals
- and not the bare digit "0" the claim states for all listed fields. -/
theorem c4_counterexample :
    (buildRow env0 "Readers"
        (Robust.get_campaign_report fun _ => ReqOutcome.response 404 rpt404).result
        c0).openRate = "0.00" ∧
    "0.00" ≠ "0" := by
  constructor
  · rw [Robust.report_404 (fun _ => ReqOutcome.response 404 rpt404) rpt404 rfl]
    show fmt2 0 = "0.00"
    exact fmt2_zero
  · decide

/-- C4, amended: a 404 from the report endpoint makes the robust report
fetch return None at once (no metrics yet, not an error), and the row
built from a None report shows the six integer metric fields (Emails
Sent, Unique Opens, Unique Clicks, Hard Bounces, Soft Bounces,
Unsubscribes) as 0 and the two rate fields (Open Rate (%), Click Rate
(%)) as "0.00", zero formatted to two decimals. -/
theorem c4_not_found_zero_row (o : Nat → ReqOutcome Report) (b : Report)
    (h : o 0 = ReqOutcome.response 404 b) (env : Env) (aud : String)
    (c : Campaign) :
    (Robust.get_campaign_report o).result = none ∧
    (buildRow env aud (Robust.get_campaign_report o).result c).emailsSent = 0 ∧
    (buildRow env aud (Robust.get_campaign_report o).result c).uniqueOpens = 0 ∧
    (buildRow env aud (Robust.get_campaign_report o).result c).openRate = "0.00" ∧
    (buildRow env aud (Robust.get_campaign_report o).result c).uniqueClicks = 0 ∧
    (buildRow env aud (Robust.get_campaign_report o).result c).clickRate = "0.00" ∧
    (buildRow env aud (Robust.get_campaign_report o).result c).hardBounces = 0 ∧
    (buildRow env aud (Robust.get_campaign_report o).result c).softBounces = 0 ∧
    (buildRow env aud (Robust.get_campaign_report o).result c).unsubscribes = 0 := by
  have hres : Robust.get_campaign_report o = ⟨none, 1, 0⟩ := Robust.report_404 o b h
  rw [hres]
  refine ⟨rfl, rfl, rfl, ?_, rfl, ?_, rfl, rfl, rfl⟩
  · show fmt2 0 = "0.00"
    exact fmt2_zero
  · show fmt2 0 = "0.00"
    exact fmt2_zero

/-- C4, witness for the amended theorem at a concrete 404 oracle. -/
theorem c4_not_found_zero_row_witness :
    ((fun _ : Nat => ReqOutcome.response 404 rpt404) 0 =
      ReqOutcome.response 404 rpt404) ∧
    (Robust.get_campaign_report fun _ => ReqOutcome.response 404 rpt404).result =
      none :=
  ⟨rfl, (c4_not_found_zero_row (fun _ => ReqOutcome.response 404 rpt404) rpt404
    rfl env0 "Readers" c0).1⟩

/-- C5, confirmed: every character of a sanitized filename is outside the
forbidden class and is not a space (spaces having been replaced by
underscores before truncation), and the result has at most 200
characters. -/
theorem c5_sanitize (s : String) :
    ((sanitize_filename s).data.all fun c =>
      !((['<', '>', ':', '\"', '/', '\\', '|', '?', '*'] : List Char).contains c) &&
        !(c == ' ')) = true ∧
    (sanitize_filename s).length ≤ 200 := by
  constructor
  · rw [List.all_eq_true]
    intro ch hch
    have hch' : ch ∈ (s.data.filter fun c =>
        !((['<', '>', ':', '\"', '/', '\\', '|', '?', '*'] : List Char).contains c)).map
          fun c => if c = ' ' then '_' else c := by
      revert hch
      simp only [sanitize_filename]
      split
      · intro hch
        exact List.mem_of_mem_take hch
      · intro hch
        exact hch
    rw [List.mem_map] at hch'
    obtain ⟨c, hcmem, hc⟩ := hch'
    rw [List.mem_filter] at hcmem
    obtain ⟨-, hcpred⟩ := hcmem
    by_cases hsp : c = ' '
    · rw [← hc, if_pos hsp]
      decide
    · rw [← hc, if_neg hsp]
      rw [Bool.and_eq_true]
      refine ⟨hcpred, ?_⟩
      simpa using hsp
  · simp only [sanitize_filename]
    split
    · show (List.take 200 _).length ≤ 200
      rw [List.length_take]
      omega
    · omega

/-- C6, confirmed: in one generate_csv run of either generator, any given
list id is passed to the list-name fetch at most once, however many
campaigns reference it: the first lookup caches the name and every later
reference hits the cache. -/
theorem c6_list_cache (env : Env) (N : Nat) (campaigns : List Campaign)
    (lid : String) :
    (Robust.generate_csv env N campaigns).list_calls.count lid ≤ 1 ∧
    (Basic.generate_csv env campaigns).list_calls.count lid ≤ 1 := by
  have hinit : cacheOk GenState.init := by
    constructor
    · exact List.nodup_nil
    · intro l hl
      simp [GenState.init] at hl
  constructor
  · rw [Robust.generate_csv]
    split
    · simp [GenState.init]
    · exact List.nodup_iff_count_le_one.mp
        (Robust.gen_loop_cacheOk env N campaigns 0 GenState.init hinit).1 lid
  · rw [Basic.generate_csv]
    split
    · simp [GenState.init]
    · exact List.nodup_iff_count_le_one.mp
        (Basic.gen_loop_cacheOk_basic env campaigns GenState.init hinit).1 lid

/-- C9, counterexample: the remote API can serve a page containing the
same campaign twice; the run then writes two rows with the same Campaign
ID - nothing in the code enforces uniqueness. -/
theorem c9_counterexample :
    ((Robust.pipeline [PageOutcome.ok [c9camp, c9camp]] env0 50).map
        fun st => st.csv_data.map Row.campaignId) = some ["dup", "dup"] ∧
    ¬ (["dup", "dup"] : List String).Nodup := by
  constructor
  · rfl
  · decide

/-- C9, amended: the Campaign ID column of a robust run is exactly the
ids of the fetched campaigns (defaulted to "N/A"), in order; hence the
rows' Campaign IDs are pairwise distinct whenever the fetched campaigns'
ids are - uniqueness holds exactly when the remote listing is
duplicate-free, since the code deduplicates nothing. -/
theorem c9_unique_ids (env : Env) (N : Nat) (campaigns : List Campaign)
    (h : (campaigns.map fun c => c.id.getD "N/A").Nodup) :
    ((Robust.generate_csv env N campaigns).csv_data.map Row.campaignId =
      campaigns.map fun c => c.id.getD "N/A") ∧
    ((Robust.generate_csv env N campaigns).csv_data.map Row.campaignId).Nodup := by
  have hmap : (Robust.generate_csv env N campaigns).csv_data.map Row.campaignId =
      campaigns.map fun c => c.id.getD "N/A" := by
    rw [Robust.generate_csv]
    split
    · rename_i hemp
      rw [List.isEmpty_iff] at hemp
      subst hemp
      rfl
    · show ((Robust.gen_loop env N campaigns 0 GenState.init).csv_data.map
          Row.campaignId) = _
      rw [Robust.gen_loop_map_id]
      rfl
  exact ⟨hmap, by rw [hmap]; exact h⟩

/-- C9, witness for the amended theorem on a one-campaign run. -/
theorem c9_unique_ids_witness :
    ((([c0] : List Campaign).map fun c => c.id.getD "N/A").Nodup) ∧
    ((Robust.generate_csv env0 50 [c0]).csv_data.map Row.campaignId).Nodup :=
  ⟨by decide, (c9_unique_ids env0 50 [c0] (by decide)).2⟩


/-- The environment of a fully successful basic run: every report and
list-name request is answered 200 with the given bodies, through the basic
single-request fetchers (the error branch is unreachable on a 200). -/
def successEnvBasic (reportJson : String → Report) (listJson : String → Option String)
    (fx : String → Bool) (dirE : Bool) (dirP : String) : Env where
  get_list_name := fun lid =>
    match Basic.get_list_name (ReqOutcome.response 200 (listJson lid)) with
    | .ok v => v
    | .error _ => "Unknown"
  get_campaign_report := fun cid =>
    match Basic.get_campaign_report (ReqOutcome.response 200 (reportJson cid)) with
    | .ok v => v
    | .error _ => none
  file_exists := fx
  dir_exists := dirE
  dir := dirP

/-- The environment of a fully successful robust run: every report and
list-name request is answered 200 with the given bodies, through the
robust retrying fetchers. -/
def successEnvRobust (reportJson : String → Report) (listJson : String → Option String)
    (fx : String → Bool) (dirE : Bool) (dirP : String) : Env where
  get_list_name := fun lid =>
    (Robust.get_list_name fun _ => ReqOutcome.response 200 (listJson lid)).result
  get_campaign_report := fun cid =>
    (Robust.get_campaign_report fun _ => ReqOutcome.response 200 (reportJson cid)).result
  file_exists := fx
  dir_exists := dirE
  dir := dirP

/-- C10, confirmed: on the same fully successful request oracles (every
page request answered 200 with a page, every report and list-name request
answered 200 with a body) and the same filesystem, the basic and the
robust generators end with identical output files - same header, same
rows, same order - for every save interval. -/
theorem c10_generators_agree (pages : List (List Campaign))
    (reportJson : String → Report) (listJson : String → Option String)
    (fx : String → Bool) (dirE : Bool) (dirP : String) (N : Nat) :
    (Basic.pipeline (pages.map PageOutcome.ok)
        (successEnvBasic reportJson listJson fx dirE dirP)).map (fun st => st.file) =
    (Robust.pipeline (pages.map PageOutcome.ok)
        (successEnvRobust reportJson listJson fx dirE dirP) N).map
      (fun st => st.file) := by
  have henv : successEnvBasic reportJson listJson fx dirE dirP =
      successEnvRobust reportJson listJson fx dirE dirP := rfl
  rw [henv, Basic.pipeline, Robust.pipeline, Basic.get_all_campaigns,
    Robust.get_all_campaigns, fetchLoop_basic_eq_robust]
  cases hout : (Robust.fetchLoop 1000 (pages.map PageOutcome.ok) [] 0).out with
  | returned cs => simp [generate_csv_file_eq _ N cs]
  | raised => rfl
  | hung => rfl
